import Mathlib

/-!
Verification of the pneumonia-mortality analysis pipeline (DATASUS SIM/SIH).

This file shallowly embeds the data model and the operations of the
repository: the field normalizers of `pneumonia_analysis/utils.py`
(`mun_to6`, `create_age_groups`, `standardize_sex`, `is_pneumonia_cid`,
`calculate_mortality_rate`), the rate aggregation of
`pneumonia_analysis/pipeline.py` (`calculate_mortality_rates`), and the
probabilistic record-linkage subsystem of `pneumonia_analysis/linkage.py`
(data preparation, blocking-based candidate generation, Gaussian comparison
features, unsupervised classification and result assembly).

Conventions of the embedding:
- pandas missing values (NaN / NaT / pd.NA) are `Option.none`;
- Python floats are embedded as `ℚ` where the code only does field
  arithmetic and comparisons, and as `ℝ` where transcendental kernels
  (the Gaussian similarity) are involved;
- Python exceptions are `Except String`;
- a pandas DataFrame is a `List` of rows, the pandas integer index being
  the row's position in the original list.
-/

/-! ### ASCII case folding (embeds Python `str.lower` / `str.upper` on the
ASCII data that flows through these columns) -/

/-- Lower-case one ASCII character, as Python `str.lower` does on ASCII. -/
def charLowerAscii (c : Char) : Char :=
  if 'A' ≤ c ∧ c ≤ 'Z' then Char.ofNat (c.toNat + 32) else c

/-- Upper-case one ASCII character, as Python `str.upper` does on ASCII. -/
def charUpperAscii (c : Char) : Char :=
  if 'a' ≤ c ∧ c ≤ 'z' then Char.ofNat (c.toNat - 32) else c

/-- Lower-case a string (ASCII range), as `source.lower()` in
`DataUtils.standardize_sex`. -/
def lowerAscii (s : String) : String := String.mk (s.data.map charLowerAscii)

/-- The characters of `s` upper-cased, as `.str.upper()` in
`DataUtils.is_pneumonia_cid`. -/
def upperChars (s : String) : List Char := s.data.map charUpperAscii

/-! ### `DataUtils.mun_to6` (utils.py lines 15-19)

`pd.Series(x).astype(str).str.extract(r"(\d+)")[0].str.zfill(6).str.slice(0, 6)`:
extract the first maximal run of digits (regex `(\d+)` finds the leftmost
match, `+` is greedy), left-pad it with zeros to length 6, keep the first 6
characters.  A string with no digit extracts to NaN, which `zfill`/`slice`
propagate. -/

/-- The leftmost maximal digit run of a character list (regex `(\d+)`). -/
def extractDigits : List Char → List Char
  | [] => []
  | c :: cs => if c.isDigit then c :: cs.takeWhile (fun d => d.isDigit) else extractDigits cs

/-- Pandas `str.zfill n`: left-pad with the character `0` to length `n`. -/
def zfill (n : Nat) (l : List Char) : List Char :=
  List.replicate (n - l.length) '0' ++ l

/-- `DataUtils.mun_to6` on one (stringified) value: 6-digit IBGE code, or
`none` for input with no digit. -/
def mun_to6 (s : String) : Option String :=
  match extractDigits s.data with
  | [] => none
  | ds => some (String.mk ((zfill 6 ds).take 6))

/-! ### `DataUtils.create_age_groups` (utils.py lines 52-59)

`pd.cut(idade_anos, bins=[-0.1, 1, 5, 14, 24, 44, 59, 74, 120], labels=[...])`
with the pandas default `right=True`: value `a` gets label `i` when
`bins[i] < a ≤ bins[i+1]`; values outside every bin, and NaN, get NaN. -/

/-- `DataUtils.create_age_groups` on one age value. -/
def create_age_groups (idade_anos : Option ℚ) : Option String :=
  match idade_anos with
  | none => none
  | some a =>
    if -1/10 < a ∧ a ≤ 1 then some "<1"
    else if 1 < a ∧ a ≤ 5 then some "1–4"
    else if 5 < a ∧ a ≤ 14 then some "5–14"
    else if 14 < a ∧ a ≤ 24 then some "15–24"
    else if 24 < a ∧ a ≤ 44 then some "25–44"
    else if 44 < a ∧ a ≤ 59 then some "45–59"
    else if 59 < a ∧ a ≤ 74 then some "60–74"
    else if 74 < a ∧ a ≤ 120 then some "75+"
    else none

/-! ### `DataUtils.standardize_sex` (utils.py lines 61-74)

A raw cell is an int code, a string, or missing.  `series.map({1:"M",2:"F"})`
is a Python dict lookup keyed on the value; `.fillna(series.astype(str).str[0]
.str.upper())` falls back to the upper-cased first character of `str(value)`
(`str[0]` of the empty string is NaN); `.map({"M":"M","F":"F"}).fillna("I")`
keeps only M/F and fills everything else with "I". -/

/-- A raw pandas cell for `standardize_sex`: int code, string, or missing. -/
inductive PyVal where
  | pint : Int → PyVal
  | pstr : String → PyVal
  | pnan : PyVal
deriving DecidableEq, Repr

/-- Python `str(value)` as pandas `astype(str)` renders it (NaN prints
as `nan`). -/
def pyStr : PyVal → String
  | .pint n => toString n
  | .pstr s => s
  | .pnan => "nan"

/-- The upper-cased first character of a string, `none` when empty
(pandas `.str[0].str.upper()`). -/
def firstUpper (s : String) : Option Char := s.data.head?.map charUpperAscii

/-- `DataUtils.standardize_sex` on one value.  `source` selects the code
table: SIM uses 1=M / 2=F with a first-letter fallback, SIH uses 1=M / 3=F
with no fallback, anything else only the first-letter fallback. -/
def standardize_sex (v : PyVal) (source : String) : String :=
  if lowerAscii source = "sim" then
    if v = PyVal.pint 1 then "M"
    else if v = PyVal.pint 2 then "F"
    else if firstUpper (pyStr v) = some 'M' then "M"
    else if firstUpper (pyStr v) = some 'F' then "F"
    else "I"
  else if lowerAscii source = "sih" then
    if v = PyVal.pint 1 then "M"
    else if v = PyVal.pint 3 then "F"
    else "I"
  else
    if firstUpper (pyStr v) = some 'M' then "M"
    else if firstUpper (pyStr v) = some 'F' then "F"
    else "I"

/-! ### `DataUtils.is_pneumonia_cid` (utils.py lines 81-84)

`cid_code.astype(str).str.upper().str.fullmatch(r"J1[2-8]\d*")`: the whole
upper-cased string must be `J`, `1`, one digit between 2 and 8, then zero or
more digits.  A missing cell stringifies to `"nan"`, which does not match. -/

/-- Full match of a character list against the regex `J1[2-8]\d*`. -/
def fullmatchJ : List Char → Bool
  | c0 :: c1 :: c2 :: rest =>
    c0 == 'J' && c1 == '1' && decide ('2' ≤ c2) && decide (c2 ≤ '8')
      && rest.all Char.isDigit
  | _ => false

/-- `DataUtils.is_pneumonia_cid` on one cell. -/
def is_pneumonia_cid (cid : Option String) : Bool :=
  fullmatchJ (upperChars (cid.getD "nan"))

/-! ### `DataUtils.calculate_mortality_rate` (utils.py lines 86-91) and
`PneumoniaAnalysisPipeline.calculate_mortality_rates` (pipeline.py 147-175)

The scalar function guards `population == 0` and returns `0.0` there;
otherwise it computes `deaths / population * 100_000` (a Python division by
zero would raise `ZeroDivisionError`; a NaN population propagates to a NaN
rate).  The pipeline groups deaths by `(mun6, ano)`, left-merges the
population table (a key with no population row keeps the count row with NaN
population; every matching population row produces one output row), and
applies the scalar function per row. -/

/-- Python division, which raises on a zero denominator. -/
def pyDiv (a b : ℚ) : Except String ℚ :=
  if b = 0 then Except.error "ZeroDivisionError" else Except.ok (a / b)

/-- `DataUtils.calculate_mortality_rate`: `none` stands for a NaN
population, which yields a NaN rate (NaN compares unequal to 0 and
propagates through the division). -/
def calculate_mortality_rate (deaths : ℚ) (population : Option ℚ) :
    Except String (Option ℚ) :=
  match population with
  | none => Except.ok none
  | some p =>
    if p = 0 then Except.ok (some 0)
    else (pyDiv deaths p).map (fun q => some (q * 100000))

/-- One row of the mortality-rate table. -/
structure RateRow where
  mun6 : String
  ano : Int
  obitos : ℚ
  pop : Option ℚ
  tx : Option ℚ
deriving DecidableEq, Repr

/-- `groupby(["mun6","ano"]).size()`: one row per distinct key, with its
number of occurrences. -/
def groupCounts (ks : List (String × Int)) : List ((String × Int) × ℚ) :=
  ks.dedup.map (fun k => (k, (ks.count k : ℚ)))

/-- `deaths.merge(population, on=["mun6","ano"], how="left")`: each count row
joins every matching population row, or carries a NaN population when no row
matches. -/
def leftMergePop (counts popT : List ((String × Int) × ℚ)) :
    List ((String × Int) × ℚ × Option ℚ) :=
  counts.flatMap (fun c =>
    let ms := popT.filter (fun p => decide (p.1 = c.1))
    if ms.isEmpty then [(c.1, c.2, none)]
    else ms.map (fun p => (c.1, c.2, some p.2)))

/-- `PneumoniaAnalysisPipeline.calculate_mortality_rates`: group, left-merge,
apply `calculate_mortality_rate` row by row (the final
`sort_values(["ano","mun6"])` reorders rows only and is dropped here: every
stated property is membership-based). -/
def calculate_mortality_rates (deaths : List (String × Int))
    (popT : List ((String × Int) × ℚ)) : Except String (List RateRow) :=
  (leftMergePop (groupCounts deaths) popT).mapM (fun r =>
    (calculate_mortality_rate r.2.1 r.2.2).map
      (fun tx => ⟨r.1.1, r.1.2, r.2.1, r.2.2, tx⟩))

/-! ### Record linkage: data preparation (linkage.py lines 57-86)

A standardized input row (SIM death or SIH discharge) carries `mun6`, `ano`,
a datetime column (`data_obito` / `data_saida`), `sexo`, `idade_anos`,
`cid3`.  A pandas datetime cell is modelled by its calendar year and month
together with its int64 nanosecond value; NaT is `none`, and
`NaT.view("int64")` is the int64 minimum `-2^63`.

`_prepare_data_for_linkage` drops rows with missing `mun6` or `ano`, then
assigns `ano_mes = date.dt.to_period("M").astype(str)` (NaT renders as the
string `"NaT"`, a real date as `"YYYY-MM"`; that rendering is injective and
never collides with `"NaT"`, so the key is modelled semantically as
`Option (year, month)`), `age_round = idade_anos.round(0)` (banker's
rounding), and `ts = date.view("int64") // 86_400_000_000_000` (floor
division, days since epoch). -/

/-- A pandas datetime cell: calendar year/month plus the int64 nanosecond
value backing the datetime64 column. -/
structure PyDatetime where
  year : Int
  month : Nat
  nanos : Int
deriving DecidableEq, Repr

/-- A standardized input row to the linker (SIM or SIH side). -/
structure LinkRaw where
  mun6 : Option String
  ano : Option Int
  date : Option PyDatetime
  sexo : String
  idade_anos : Option ℚ
  cid3 : String
deriving DecidableEq, Repr

/-- Round half to even (numpy / pandas `round(0)`). -/
def roundHalfEven (q : ℚ) : ℤ :=
  let f := ⌊q⌋
  if q - f < 1/2 then f
  else if 1/2 < q - f then f + 1
  else if f % 2 = 0 then f else f + 1

/-- `date.view("int64") // 86_400_000_000_000` (whole days since epoch,
floor division; NaT views as `-2^63`). -/
def tsOf (d : Option PyDatetime) : Int :=
  (match d with | none => -(2 ^ 63) | some t => t.nanos).fdiv 86400000000000

/-- The `ano_mes` blocking key: `dt.to_period("M").astype(str)` rendered
semantically (`none` is the NaT string, `some (y, m)` the `"YYYY-MM"`
string; the rendering is injective). -/
def ymOf (d : Option PyDatetime) : Option (Int × Nat) :=
  d.map (fun t => (t.year, t.month))

/-- A prepared row (the frame `A` / `B` of `_prepare_data_for_linkage`):
columns `["mun6", "ano", "ano_mes", "sexo", "age_round", "cid3", "ts"]`,
with `mun6` and `ano` known present. -/
structure Prepared where
  mun6 : String
  ano : Int
  anoMes : Option (Int × Nat)
  sexo : String
  ageRound : Option Int
  cid3 : String
  ts : Int
deriving DecidableEq, Repr

/-- Prepare one row: `none` when `dropna(subset=["mun6","ano"])` drops it. -/
def prepareRow (r : LinkRaw) : Option Prepared :=
  match r.mun6, r.ano with
  | some m, some y =>
    some ⟨m, y, ymOf r.date, r.sexo, r.idade_anos.map roundHalfEven, r.cid3, tsOf r.date⟩
  | _, _ => none

/-- Prepare a frame, keeping each surviving row's original index
(`dropna` preserves the pandas index). -/
def prepareAux : Nat → List LinkRaw → List (Nat × Prepared)
  | _, [] => []
  | i, r :: rs =>
    match prepareRow r with
    | some p => (i, p) :: prepareAux (i + 1) rs
    | none => prepareAux (i + 1) rs

/-- `_prepare_data_for_linkage` for one side. -/
def prepare (rows : List LinkRaw) : List (Nat × Prepared) := prepareAux 0 rows

/-! ### Blocking (linkage.py lines 88-105)

`recordlinkage.Index().block(left_on=["mun6","ano_mes","sexo"], ...)` joins
the two frames on exact equality of the three key columns and returns every
(left index, right index) combination sharing a key, each exactly once. -/

/-- The composite blocking key `(mun6, ano_mes, sexo)`. -/
def blockKey (p : Prepared) : String × Option (Int × Nat) × String :=
  (p.mun6, p.anoMes, p.sexo)

/-- `_create_candidate_pairs`: every (row of A, row of B) combination whose
blocking keys are equal, with the original indices. -/
def createCandidatePairs (A B : List (Nat × Prepared)) :
    List ((Nat × Prepared) × (Nat × Prepared)) :=
  A.flatMap (fun a =>
    (B.filter (fun b => decide (blockKey a.2 = blockKey b.2))).map (fun b => (a, b)))

/-- The candidate-pair MultiIndex as generated from the two raw tables:
(death row index, discharge row index). -/
def candidatePairIndices (sim sih : List LinkRaw) : List (Nat × Nat) :=
  (createCandidatePairs (prepare sim) (prepare sih)).map (fun ab => (ab.1.1, ab.2.1))

/-! ### Comparison features (linkage.py lines 107-138)

`Compare().exact("cid3", ...)` is the 0/1 equality indicator.
`Compare().numeric(..., method="gauss", scale=s)` is the record-linkage
toolkit's Gaussian decay kernel (the ElasticSearch-style half-decay family):
`sim(d) = 2 ** (-((d - offset) / scale) ** 2)` with the default
`offset = 0, origin = 0`, so the similarity is 1 at distance 0 and 1/2 at
distance `scale`; a missing input value yields the default
`missing_value = 0.0`. -/

/-- One comparison vector (columns `cid3_eq`, `age_close`, `date_close`). -/
structure FeatureVec (R : Type) where
  cid3_eq : R
  age_close : R
  date_close : R
deriving DecidableEq, Repr

/-- The toolkit's `gauss` numeric similarity with the default offset/origin:
`2 ^ (-(d / scale) ^ 2)`. -/
noncomputable def gaussSim (scale d : ℝ) : ℝ :=
  (2 : ℝ) ^ (-((d / scale) ^ 2))

/-- `_calculate_comparison_features` for one candidate pair: exact `cid3`,
Gaussian age proximity at scale 2 on the rounded ages (0 when an age is
missing), Gaussian date proximity at scale 3 on the day numbers. -/
noncomputable def compareFeatures (a b : Prepared) : FeatureVec ℝ where
  cid3_eq := if a.cid3 = b.cid3 then 1 else 0
  age_close :=
    match a.ageRound, b.ageRound with
    | some x, some y => gaussSim 2 ((x : ℝ) - (y : ℝ))
    | _, _ => 0
  date_close := gaussSim 3 ((a.ts : ℝ) - (b.ts : ℝ))

/-- The aggregate score `features.sum(axis=1)` of one comparison vector. -/
def featSum {R : Type} [Add R] (f : FeatureVec R) : R :=
  f.cid3_eq + f.age_close + f.date_close

/-! ### Classification (linkage.py lines 140-153)

`_classify_pairs` builds `recordlinkage.ECMClassifier()` (falling back to
`BernoulliEMClassifier` only when the attribute is absent) and calls
`clf.fit_predict(features)` with no exception handling: whatever the fit
raises propagates.  The fitted classifier is opaque third-party code, so it
is a parameter of the embedding; a run that raises is an `Except.error`. -/

/-- The classifier environment: which class the `try/except AttributeError`
selects, and the two opaque `fit_predict` functions (match decision per
candidate pair, or a raised exception). -/
structure ClassifierEnv (R : Type) where
  hasECM : Bool
  ecm : List (FeatureVec R) → Except String (List Bool)
  bernoulliEM : List (FeatureVec R) → Except String (List Bool)

/-- `_classify_pairs`: run the selected classifier; errors propagate. -/
def classifyPairs {R : Type} (env : ClassifierEnv R)
    (features : List (FeatureVec R)) : Except String (List Bool) :=
  (if env.hasECM then env.ecm else env.bernoulliEM) features

/-- Modelled from the spec: the fixed-threshold fallback rule of its section
4.4 — decide "match" for a pair when the sum of its three comparison scores
is at least 2.0.  The repository's `_classify_pairs` contains no such code
path; this definition exists only to compare the spec's described behaviour
with the code's. -/
noncomputable def specThresholdFallback (features : List (FeatureVec ℝ)) : List Bool :=
  features.map (fun f => decide ((2 : ℝ) ≤ featSum f))

/-! ### Result assembly (linkage.py lines 155-185)

`_build_linkage_result` opens with
`out = matches.to_frame(index=False, name="match").reset_index()`.
`matches` is the `pandas.MultiIndex` that `fit_predict` returns, and
`MultiIndex.to_frame` rejects a scalar `name` — it raises
`TypeError: 'name' must be a list / sequence of column names.` — so this
first statement raises unconditionally whenever the function is reached
(and under the boolean-Series reading of `matches`, `Series.to_frame` has
no `index` keyword at all and raises just the same).  The index joins, the
`score = features.loc[matches].sum(axis=1)` column and the
`sort_values("score", ascending=False)` below it are dead code: the
function never produces a table, and the embedding is the raised error. -/

/-- One row of the linkage result table the dead assembly code below the
raising statement would describe; `_build_linkage_result` never produces
one. -/
structure ResultRow (R : Type) where
  idx_sim : Nat
  idx_sih : Nat
  simRow : Prepared
  sihRow : Prepared
  score : R
deriving DecidableEq, Repr

/-- `_build_linkage_result`: its first statement,
`matches.to_frame(index=False, name="match")`, raises `TypeError` for
every input, so the whole function is that raised exception. -/
def buildLinkageResult {R : Type}
    (pairs : List ((Nat × Prepared) × (Nat × Prepared)))
    (feats : List (FeatureVec R)) (matched : List Bool) :
    Except String (List (ResultRow R)) :=
  Except.error "TypeError: name must be a list / sequence of column names."

/-- `ProbabilisticLinker.link_sim_sih`: prepare both sides, short-circuit on
an empty side or an empty candidate set, compare, classify, assemble.  A
classifier exception propagates and fails the run; a successful
classification reaches `_build_linkage_result`, whose unconditional
`TypeError` fails the run too. -/
noncomputable def link_sim_sih (env : ClassifierEnv ℝ) (sim sih : List LinkRaw) :
    Except String (List (ResultRow ℝ)) :=
  let A := prepare sim
  let B := prepare sih
  if A.isEmpty || B.isEmpty then Except.ok []
  else
    let pairs := createCandidatePairs A B
    if pairs.isEmpty then Except.ok []
    else
      let feats := pairs.map (fun ab => compareFeatures ab.1.2 ab.2.2)
      match classifyPairs env feats with
      | Except.error e => Except.error e
      | Except.ok matched => buildLinkageResult pairs feats matched

/-! ### Concrete instances used by individual witnesses and counterexamples -/

/-- A concrete prepared death row (municipality 310620, March 2022, male,
age 70, diagnosis J18, day 19066 since epoch). -/
def rowAge70 : Prepared := ⟨"310620", 2022, some (2022, 3), "M", some 70, "J18", 19066⟩

/-- The same prepared row with rounded age 72. -/
def rowAge72 : Prepared := ⟨"310620", 2022, some (2022, 3), "M", some 72, "J18", 19066⟩

/-- A raw linkage input row whose date is missing (NaT) and whose raw age is
missing, with municipality and year present. -/
def rowNoDate : LinkRaw := ⟨some "310620", some 2022, none, "M", none, "J18"⟩

/-- A raw linkage input row equal to `rowNoDate` except for a real death
date (2022-03-15, nanosecond value 1647302400000000000). -/
def rowMarch : LinkRaw :=
  ⟨some "310620", some 2022, some ⟨2022, 3, 1647302400000000000⟩, "M", none, "J18"⟩

/-- A classifier environment whose fit raises on every input (a degenerate
candidate set makes the EM fit fail). -/
def failingEnv : ClassifierEnv ℝ :=
  ⟨true, fun _ => Except.error "degenerate input", fun _ => Except.error "degenerate input"⟩

/-- The prepared form of `rowNoDate` (NaT day number
`-2^63 // 86_400_000_000_000 = -106752`). -/
def prepNoDate : Prepared := ⟨"310620", 2022, none, "M", none, "J18", -106752⟩

/-- A classifier environment whose fit succeeds and marks every candidate
pair as a match, driving the run into `_build_linkage_result`. -/
def matchAllEnv : ClassifierEnv ℝ :=
  ⟨true, fun fs => Except.ok (fs.map (fun _ => true)),
    fun fs => Except.ok (fs.map (fun _ => true))⟩

/-! ## Theorems -/

/-! ### Helper lemmas about `extractDigits` and `zfill` -/

theorem extractDigits_subset {l : List Char} {c : Char} (h : c ∈ extractDigits l) :
    c ∈ l := by
  induction l with
  | nil => simp [extractDigits] at h
  | cons d ds ih =>
    by_cases hd : d.isDigit
    · rw [extractDigits, if_pos hd] at h
      rcases List.mem_cons.mp h with h | h
      · simp [h]
      · exact List.mem_cons_of_mem _ ((List.takeWhile_sublist _).mem h)
    · rw [extractDigits, if_neg hd] at h
      exact List.mem_cons_of_mem _ (ih h)

theorem extractDigits_eq_nil {l : List Char} :
    extractDigits l = [] ↔ ∀ c ∈ l, c.isDigit = false := by
  induction l with
  | nil => simp [extractDigits]
  | cons d ds ih =>
    by_cases hd : d.isDigit
    · rw [extractDigits, if_pos hd]
      simp [hd]
    · rw [extractDigits, if_neg hd]
      simp only [ih, List.mem_cons]
      constructor
      · intro h c hc
        rcases hc with rfl | hc
        · exact Bool.eq_false_iff.mpr hd
        · exact h c hc
      · intro h c hc
        exact h c (Or.inr hc)

theorem extractDigits_mem_digit {l : List Char} {c : Char}
    (h : c ∈ extractDigits l) : c.isDigit = true := by
  induction l with
  | nil => simp [extractDigits] at h
  | cons d ds ih =>
    by_cases hd : d.isDigit
    · rw [extractDigits, if_pos hd] at h
      rcases List.mem_cons.mp h with rfl | h
      · exact hd
      · exact List.mem_takeWhile_imp h
    · rw [extractDigits, if_neg hd] at h
      exact ih h

theorem extractDigits_of_all_digits {l : List Char} (hne : l ≠ [])
    (h : ∀ c ∈ l, c.isDigit = true) : extractDigits l = l := by
  cases l with
  | nil => exact absurd rfl hne
  | cons d ds =>
    rw [extractDigits, if_pos (h d (List.mem_cons_self d ds))]
    congr 1
    exact List.takeWhile_eq_self_iff.mpr (fun c hc => h c (List.mem_cons_of_mem _ hc))

theorem zfill_length (n : Nat) (l : List Char) :
    (zfill n l).length = max n l.length := by
  simp [zfill]
  omega

theorem zfill_mem {n : Nat} {l : List Char} {c : Char} (h : c ∈ zfill n l) :
    c = '0' ∨ c ∈ l := by
  rcases List.mem_append.mp h with h | h
  · exact Or.inl (List.eq_of_mem_replicate h)
  · exact Or.inr h

/-- C9: for every input, `mun_to6` returns `none` exactly when the input has
no digit, any returned string has exactly 6 characters, all digits, and an
already-canonical 6-digit string is returned unchanged. -/
theorem mun_to6_spec (s : String) :
    (mun_to6 s = none ↔ ∀ c ∈ s.data, c.isDigit = false) ∧
    (∀ t, mun_to6 s = some t → t.length = 6 ∧ ∀ c ∈ t.data, c.isDigit = true) ∧
    (∀ t : String, t.length = 6 → (∀ c ∈ t.data, c.isDigit = true) →
      mun_to6 t = some t) := by
  refine ⟨?_, ?_, ?_⟩
  · cases h : extractDigits s.data with
    | nil => exact ⟨fun _ => extractDigits_eq_nil.mp h, fun _ => by rw [mun_to6, h]⟩
    | cons d ds =>
      rw [mun_to6, h]
      simp only [reduceCtorEq, false_iff, not_forall]
      refine ⟨d, extractDigits_subset (h ▸ List.mem_cons_self d ds), ?_⟩
      have := extractDigits_mem_digit (h ▸ List.mem_cons_self d ds)
      simp [this]
  · intro t ht
    cases h : extractDigits s.data with
    | nil => rw [mun_to6, h] at ht; cases ht
    | cons d ds =>
      rw [mun_to6, h] at ht
      cases ht
      constructor
      · show ((zfill 6 (d :: ds)).take 6).length = 6
        rw [List.length_take, zfill_length]
        simp
      · intro c hc
        have hc' : c ∈ zfill 6 (d :: ds) := List.mem_of_mem_take hc
        rcases zfill_mem hc' with rfl | hc''
        · decide
        · exact extractDigits_mem_digit (h ▸ hc'')
  · intro t hlen hdig
    have hne : t.data ≠ [] := by
      intro hnil
      rw [String.length, hnil] at hlen
      simp at hlen
    have hext : extractDigits t.data = t.data := extractDigits_of_all_digits hne hdig
    have hl : t.data.length = 6 := hlen
    cases ht : t.data with
    | nil => exact absurd ht hne
    | cons d ds =>
      rw [mun_to6, hext, ht]
      show some (String.mk ((zfill 6 (d :: ds)).take 6)) = some t
      rw [← ht]
      have hz : zfill 6 t.data = t.data := by
        rw [zfill, hl]
        simp
      rw [hz, ← hl, List.take_length]

/-! ### C6: age bucketing -/

set_option maxHeartbeats 3200000 in
/-- C6 (amended): `create_age_groups` maps a missing age to null (there is
no "Unknown" label); a present age gets exactly one of the 8 labels, and the
buckets are the left-open right-closed intervals (-0.1,1], (1,5], (5,14],
(14,24], (24,44], (44,59], (59,74], (74,120], which partition (-0.1, 120];
ages outside that range (in particular every age above 120) get null. -/
theorem create_age_groups_spec (x : ℚ) :
    create_age_groups none = none ∧
    (create_age_groups (some x) = none ↔ (x ≤ -1/10 ∨ 120 < x)) ∧
    (∀ l, create_age_groups (some x) = some l →
      l ∈ ["<1", "1–4", "5–14", "15–24", "25–44", "45–59", "60–74", "75+"]) ∧
    (create_age_groups (some x) = some "<1" ↔ -1/10 < x ∧ x ≤ 1) ∧
    (create_age_groups (some x) = some "1–4" ↔ 1 < x ∧ x ≤ 5) ∧
    (create_age_groups (some x) = some "5–14" ↔ 5 < x ∧ x ≤ 14) ∧
    (create_age_groups (some x) = some "15–24" ↔ 14 < x ∧ x ≤ 24) ∧
    (create_age_groups (some x) = some "25–44" ↔ 24 < x ∧ x ≤ 44) ∧
    (create_age_groups (some x) = some "45–59" ↔ 44 < x ∧ x ≤ 59) ∧
    (create_age_groups (some x) = some "60–74" ↔ 59 < x ∧ x ≤ 74) ∧
    (create_age_groups (some x) = some "75+" ↔ 74 < x ∧ x ≤ 120) := by
  have hnone : create_age_groups (some x) = none ↔ (x ≤ -1/10 ∨ 120 < x) := by
    rw [create_age_groups]
    split_ifs with h1 h2 h3 h4 h5 h6 h7 h8
    · simp only [reduceCtorEq, false_iff, not_or, not_le, not_lt]
      constructor <;> linarith
    · simp only [reduceCtorEq, false_iff, not_or, not_le, not_lt]
      constructor <;> linarith
    · simp only [reduceCtorEq, false_iff, not_or, not_le, not_lt]
      constructor <;> linarith
    · simp only [reduceCtorEq, false_iff, not_or, not_le, not_lt]
      constructor <;> linarith
    · simp only [reduceCtorEq, false_iff, not_or, not_le, not_lt]
      constructor <;> linarith
    · simp only [reduceCtorEq, false_iff, not_or, not_le, not_lt]
      constructor <;> linarith
    · simp only [reduceCtorEq, false_iff, not_or, not_le, not_lt]
      constructor <;> linarith
    · simp only [reduceCtorEq, false_iff, not_or, not_le, not_lt]
      constructor <;> linarith
    · simp only [true_iff]
      push_neg at h1 h2 h3 h4 h5 h6 h7 h8
      rcases le_or_lt x (-1/10) with h | h
      · exact Or.inl h
      · exact Or.inr (h8 (h7 (h6 (h5 (h4 (h3 (h2 (h1 h))))))))
  have hmem : ∀ l, create_age_groups (some x) = some l →
      l ∈ ["<1", "1–4", "5–14", "15–24", "25–44", "45–59", "60–74", "75+"] := by
    intro l h
    rw [create_age_groups] at h
    split_ifs at h <;> (injection h with h'; subst h'; decide)
  refine ⟨rfl, hnone, hmem, ?_, ?_, ?_, ?_, ?_, ?_, ?_, ?_⟩ <;>
    constructor <;>
    (try (intro h
          rw [create_age_groups] at h
          split_ifs at h with h1 h2 h3 h4 h5 h6 h7 h8 <;>
            first
              | exact h1
              | exact h2
              | exact h3
              | exact h4
              | exact h5
              | exact h6
              | exact h7
              | exact h8
              | exact absurd h (by decide))) <;>
    (rintro ⟨ha, hb⟩
     rw [create_age_groups]
     split_ifs with h1 h2 h3 h4 h5 h6 h7 h8 <;>
       first
         | rfl
         | exact absurd (And.intro ha hb) h1
         | exact absurd (And.intro ha hb) h2
         | exact absurd (And.intro ha hb) h3
         | exact absurd (And.intro ha hb) h4
         | exact absurd (And.intro ha hb) h5
         | exact absurd (And.intro ha hb) h6
         | exact absurd (And.intro ha hb) h7
         | exact absurd (And.intro ha hb) h8
         | (exfalso
            first
              | linarith [h1.1, h1.2]
              | linarith [h2.1, h2.2]
              | linarith [h3.1, h3.2]
              | linarith [h4.1, h4.2]
              | linarith [h5.1, h5.2]
              | linarith [h6.1, h6.2]
              | linarith [h7.1, h7.2]))

/-- C6 counterexample: at age exactly 1 the code yields the label `<1`
(pandas `cut` buckets are right-closed), not the label `1–4` that the
claimed half-open partition `[1,5)` assigns. -/
theorem create_age_groups_at_one :
    create_age_groups (some 1) = some "<1" ∧ "<1" ≠ "1–4" := by
  constructor
  · norm_num [create_age_groups]
  · decide

/-! ### C7: diagnosis-set membership -/

theorem fullmatchJ_iff (l : List Char) :
    fullmatchJ l = true ↔
      ∃ c ds, l = 'J' :: '1' :: c :: ds ∧ '2' ≤ c ∧ c ≤ '8' ∧
        ∀ d ∈ ds, d.isDigit = true := by
  match l with
  | [] => simp [fullmatchJ]
  | [c0] => simp [fullmatchJ]
  | [c0, c1] => simp [fullmatchJ]
  | c0 :: c1 :: c2 :: rest =>
    rw [fullmatchJ]
    simp only [Bool.and_eq_true, beq_iff_eq, decide_eq_true_eq, List.all_eq_true]
    constructor
    · rintro ⟨⟨⟨⟨rfl, rfl⟩, h2⟩, h3⟩, h4⟩
      exact ⟨c2, rest, rfl, h2, h3, h4⟩
    · rintro ⟨c, ds, heq, h2, h3, h4⟩
      injection heq with e0 heq
      injection heq with e1 heq
      injection heq with e2 heq
      subst e0; subst e1; subst e2; subst heq
      exact ⟨⟨⟨⟨rfl, rfl⟩, h2⟩, h3⟩, h4⟩

/-- C7 (amended): `is_pneumonia_cid` upper-cases its input and is true
exactly when the result fully matches `J1`, a digit 2-8, then zero or more
further digits (not arbitrary trailing characters); it accepts "J120",
"J13" and lower-case "j13", and rejects "J18X1", "J11", "A09", the empty
string, and a missing value. -/
theorem pneumonia_cid_spec :
    (∀ s : String, is_pneumonia_cid (some s) = true ↔
      ∃ c ds, upperChars s = 'J' :: '1' :: c :: ds ∧ '2' ≤ c ∧ c ≤ '8' ∧
        ∀ d ∈ ds, d.isDigit = true) ∧
    is_pneumonia_cid (some "J120") = true ∧
    is_pneumonia_cid (some "J13") = true ∧
    is_pneumonia_cid (some "j13") = true ∧
    is_pneumonia_cid (some "J18X1") = false ∧
    is_pneumonia_cid (some "J11") = false ∧
    is_pneumonia_cid (some "A09") = false ∧
    is_pneumonia_cid (some "") = false ∧
    is_pneumonia_cid none = false := by
  refine ⟨fun s => ?_, by decide, by decide, by decide, by decide, by decide,
    by decide, by decide, by decide⟩
  rw [is_pneumonia_cid]
  exact fullmatchJ_iff (upperChars s)

/-- C7 counterexample: the code rejects "J18X1" (the regex `J1[2-8]\d*`
allows only digit tails), though the claim says it is accepted. -/
theorem pneumonia_cid_rejects_J18X1 : is_pneumonia_cid (some "J18X1") = false := by
  decide

/-! ### C8: sex standardization -/

/-- C8 (amended): with the death-registry (SIM) schema, `standardize_sex`
maps the integer code 1 to M and 2 to F, and any other value first falls
back to the upper-cased first character of its string form — a string
starting with M/m maps to M and one starting with F/f maps to F — with
everything else, the missing value included, mapping to the unknown label
"I".  With the discharge (SIH) schema it maps 1 to M and 3 to F and has no
string fallback: every other value, missing included, maps to "I". -/
theorem standardize_sex_spec (v : PyVal) :
    standardize_sex v "sim" =
      (if v = PyVal.pint 1 then "M"
       else if v = PyVal.pint 2 then "F"
       else if firstUpper (pyStr v) = some 'M' then "M"
       else if firstUpper (pyStr v) = some 'F' then "F"
       else "I") ∧
    standardize_sex v "sih" =
      (if v = PyVal.pint 1 then "M" else if v = PyVal.pint 3 then "F" else "I") ∧
    standardize_sex PyVal.pnan "sim" = "I" ∧
    standardize_sex PyVal.pnan "sih" = "I" ∧
    (∀ src, standardize_sex v src = "M" ∨ standardize_sex v src = "F" ∨
      standardize_sex v src = "I") := by
  have hsim : lowerAscii "sim" = "sim" := by decide
  have hsih : lowerAscii "sih" = "sih" := by decide
  have hne : ("sih" : String) ≠ "sim" := by decide
  refine ⟨?_, ?_, by decide, by decide, ?_⟩
  · rw [standardize_sex, if_pos hsim]
  · rw [standardize_sex, if_neg (by rw [hsih]; exact hne), if_pos hsih]
  · intro src
    rw [standardize_sex]
    split_ifs <;> simp

/-- C8 counterexample: under the death-registry schema the string "F" —
neither code 1 nor code 2 — maps to "F" through the first-character
fallback, not to the unknown label as the claim states. -/
theorem standardize_sex_sim_string_not_unknown :
    standardize_sex (PyVal.pstr "F") "sim" = "F" ∧ ("F" : String) ≠ "I" := by
  decide

/-! ### C5: mortality rates -/

theorem calculate_mortality_rate_ok (d : ℚ) (p : Option ℚ) :
    calculate_mortality_rate d p =
      Except.ok (match p with
        | none => none
        | some q => if q = 0 then some 0 else some (d / q * 100000)) := by
  match p with
  | none => rfl
  | some q =>
    by_cases hq : q = 0
    · simp [calculate_mortality_rate, hq]
    · simp [calculate_mortality_rate, pyDiv, hq, Except.map]

theorem mapM_ok_of_forall {α β : Type} (f : α → Except String β) (g : α → β)
    (l : List α) (h : ∀ a ∈ l, f a = Except.ok (g a)) :
    l.mapM f = Except.ok (l.map g) := by
  induction l with
  | nil => rfl
  | cons a l ih =>
    rw [List.mapM_cons, h a (List.mem_cons_self a l),
      ih (fun b hb => h b (List.mem_cons_of_mem a hb))]
    rfl

/-- C5 (amended): `calculate_mortality_rates` never raises; in every output
row a missing population yields a null rate, a population equal to zero
yields the rate 0.0 (not null), and a nonzero population `p` yields the
rate `count / p * 100000`. -/
theorem mortality_rates_spec (deaths : List (String × Int))
    (popT : List ((String × Int) × ℚ)) :
    ∃ rows, calculate_mortality_rates deaths popT = Except.ok rows ∧
      ∀ r ∈ rows,
        (r.pop = none → r.tx = none) ∧
        (r.pop = some 0 → r.tx = some 0) ∧
        (∀ p, r.pop = some p → p ≠ 0 → r.tx = some (r.obitos / p * 100000)) := by
  classical
  refine ⟨(leftMergePop (groupCounts deaths) popT).map (fun r =>
    ⟨r.1.1, r.1.2, r.2.1, r.2.2, match r.2.2 with
      | none => none
      | some q => if q = 0 then some 0 else some (r.2.1 / q * 100000)⟩), ?_, ?_⟩
  · rw [calculate_mortality_rates]
    refine mapM_ok_of_forall _ _ _ (fun a _ => ?_)
    rw [calculate_mortality_rate_ok]
    rfl
  · intro r hr
    rcases List.mem_map.mp hr with ⟨a, _, rfl⟩
    refine ⟨?_, ?_, ?_⟩
    · intro hp
      simp only at hp ⊢
      rw [hp]
    · intro hp
      simp only at hp ⊢
      rw [hp]
      simp
    · intro p hp hpne
      simp only at hp ⊢
      rw [hp]
      simp [hpne]

/-- C5 counterexample: at population exactly 0 the code returns the rate
0.0, not a null rate as the claim states. -/
theorem rate_zero_population_not_null :
    calculate_mortality_rate 3 (some 0) = Except.ok (some 0) ∧
    (some (0 : ℚ) ≠ (none : Option ℚ)) := by
  exact ⟨calculate_mortality_rate_ok 3 (some 0), by simp⟩

/-! ### C2: Gaussian similarity kernel -/

/-- C2 (amended): the age and date scores use the record-linkage toolkit's
half-decay Gaussian `2 ^ (-(d / scale) ^ 2)` (not
`exp (-(d ^ 2) / (2 * scale ^ 2))`): the score is 1.0 at zero difference,
symmetric in its two arguments, strictly decreasing in absolute difference
(for a positive scale), and at scale 2 it equals `2 ^ (-1/4) ≈ 0.84` at 1
year of age difference and exactly 0.5 at 2 years; the age score applies to
the rounded ages and the date score is the same kernel at scale 3 on the
whole-day difference. -/
theorem gauss_similarity_spec :
    (∀ s : ℝ, gaussSim s 0 = 1) ∧
    (∀ s d : ℝ, gaussSim s d = gaussSim s (-d)) ∧
    (∀ s d₁ d₂ : ℝ, 0 < s → |d₁| < |d₂| → gaussSim s d₂ < gaussSim s d₁) ∧
    gaussSim 2 1 = (2 : ℝ) ^ (-(1/4) : ℝ) ∧
    gaussSim 2 2 = 1/2 ∧
    (∀ a b : Prepared, ∀ x y : ℤ, a.ageRound = some x → b.ageRound = some y →
      (compareFeatures a b).age_close = gaussSim 2 ((x : ℝ) - (y : ℝ))) ∧
    (∀ a b : Prepared,
      (compareFeatures a b).date_close = gaussSim 3 ((a.ts : ℝ) - (b.ts : ℝ))) := by
  refine ⟨?_, ?_, ?_, ?_, ?_, ?_, ?_⟩
  · intro s
    simp [gaussSim]
  · intro s d
    simp [gaussSim, neg_div]
  · intro s d₁ d₂ hs h
    rw [gaussSim, gaussSim]
    apply (Real.rpow_lt_rpow_left_iff (by norm_num : (1:ℝ) < 2)).mpr
    have hsq : d₁ ^ 2 < d₂ ^ 2 := by
      rw [← sq_abs d₁, ← sq_abs d₂]
      exact pow_lt_pow_left₀ h (abs_nonneg d₁) (by norm_num)
    have h2 : (d₁ / s) ^ 2 < (d₂ / s) ^ 2 := by
      rw [div_pow, div_pow]
      exact div_lt_div_of_pos_right hsq (by positivity)
    linarith
  · rw [gaussSim]
    norm_num
  · rw [gaussSim]
    norm_num
  · intro a b x y hx hy
    simp [compareFeatures, hx, hy]
  · intro a b
    simp [compareFeatures]

/-- C2 counterexample: at 2 years of age difference (ages rounded to 70 and
72) the computed age score is exactly 0.5, while the claimed formula
`exp (-((age_a - age_b) ^ 2) / (2 * 2 ^ 2))` equals `exp (-1/2) ≈ 0.61`;
the two disagree. -/
theorem age_score_not_spec_gaussian :
    (compareFeatures rowAge70 rowAge72).age_close ≠
      Real.exp (-(((70 : ℝ) - 72) ^ 2) / (2 * 2 ^ 2)) := by
  have hval : (compareFeatures rowAge70 rowAge72).age_close = 1/2 := by
    have h1 : (compareFeatures rowAge70 rowAge72).age_close =
        gaussSim 2 (((70 : ℤ) : ℝ) - ((72 : ℤ) : ℝ)) := by
      simp [compareFeatures, rowAge70, rowAge72]
    rw [h1, gaussSim]
    norm_num
  have hrhs : Real.exp (-(((70 : ℝ) - 72) ^ 2) / (2 * 2 ^ 2)) =
      Real.exp (-(1/2)) := by
    norm_num
  have hlt : (1 : ℝ)/2 < Real.exp (-(1/2)) := by
    have hlog2 : (1:ℝ)/2 < Real.log 2 := by
      linarith [Real.log_two_gt_d9]
    have hlog : Real.log (1/2) = -Real.log 2 := by
      rw [one_div, Real.log_inv]
    have hmono : Real.log (1/2) < -(1/2) := by
      rw [hlog]; linarith
    calc (1:ℝ)/2 = Real.exp (Real.log (1/2)) := (Real.exp_log (by norm_num)).symm
    _ < Real.exp (-(1/2)) := Real.exp_lt_exp.mpr hmono
  rw [hval, hrhs]
  exact ne_of_lt hlt

/-! ### C4: result assembly -/

/-- C4: the result assembly never happens — `_build_linkage_result` raises
`TypeError` at its first statement (`matches.to_frame(index=False,
name="match")` with a scalar `name` on the MultiIndex that `fit_predict`
returns) — so no table with summed scores and a descending sort is ever
produced.  Evaluating the pipeline at a concrete input whose classification
succeeds (two one-row tables sharing the blocking key, a classifier that
marks the single candidate pair as a match) ends the run in that raised
`TypeError` instead of a result table. -/
theorem linkage_result_assembly_raises :
    link_sim_sih matchAllEnv [rowNoDate] [rowNoDate] =
      Except.error "TypeError: name must be a list / sequence of column names." ∧
    ∀ rows, link_sim_sih matchAllEnv [rowNoDate] [rowNoDate] ≠ Except.ok rows := by
  refine ⟨rfl, fun rows h => ?_⟩
  rw [show link_sim_sih matchAllEnv [rowNoDate] [rowNoDate] =
    Except.error "TypeError: name must be a list / sequence of column names." from rfl] at h
  cases h

/-! ### C1 and C10: blocking -/

theorem prepareAux_mem : ∀ (rows : List LinkRaw) (k i : Nat) (p : Prepared),
    ((i, p) ∈ prepareAux k rows ↔
      ∃ j ra, i = k + j ∧ rows.get? j = some ra ∧ prepareRow ra = some p) := by
  intro rows
  induction rows with
  | nil =>
    intro k i p
    simp [prepareAux]
  | cons r rs ih =>
    intro k i p
    cases hr : prepareRow r with
    | some p0 =>
      simp only [prepareAux, hr, List.mem_cons, Prod.mk.injEq, ih]
      constructor
      · rintro (⟨rfl, rfl⟩ | ⟨j, ra, rfl, hj, hp⟩)
        · exact ⟨0, r, by omega, rfl, hr⟩
        · exact ⟨j + 1, ra, by omega, by simpa using hj, hp⟩
      · rintro ⟨j, ra, rfl, hj, hp⟩
        cases j with
        | zero =>
          left
          simp only [List.get?_cons_zero, Option.some.injEq] at hj
          subst hj
          rw [hr] at hp
          injection hp with hp
          exact ⟨by omega, hp.symm⟩
        | succ j =>
          right
          exact ⟨j, ra, by omega, by simpa using hj, hp⟩
    | none =>
      simp only [prepareAux, hr, ih]
      constructor
      · rintro ⟨j, ra, rfl, hj, hp⟩
        exact ⟨j + 1, ra, by omega, by simpa using hj, hp⟩
      · rintro ⟨j, ra, rfl, hj, hp⟩
        cases j with
        | zero =>
          simp only [List.get?_cons_zero, Option.some.injEq] at hj
          subst hj
          rw [hr] at hp
          cases hp
        | succ j =>
          exact ⟨j, ra, by omega, by simpa using hj, hp⟩

theorem prepare_mem (rows : List LinkRaw) (i : Nat) (p : Prepared) :
    (i, p) ∈ prepare rows ↔
      ∃ ra, rows.get? i = some ra ∧ prepareRow ra = some p := by
  rw [prepare, prepareAux_mem]
  constructor
  · rintro ⟨j, ra, rfl, hj, hp⟩
    exact ⟨ra, by simpa using hj, hp⟩
  · rintro ⟨ra, hi, hp⟩
    exact ⟨i, ra, (Nat.zero_add i).symm, hi, hp⟩

theorem prepareAux_fst_ge : ∀ (rows : List LinkRaw) (k : Nat) (x : Nat × Prepared),
    x ∈ prepareAux k rows → k ≤ x.1 := by
  intro rows
  induction rows with
  | nil => intro k x hx; simp [prepareAux] at hx
  | cons r rs ih =>
    intro k x hx
    cases hr : prepareRow r with
    | some p0 =>
      rw [prepareAux] at hx
      rw [hr] at hx
      rcases List.mem_cons.mp hx with rfl | hx
      · exact Nat.le_refl k
      · exact Nat.le_of_succ_le (ih (k + 1) x hx)
    | none =>
      rw [prepareAux] at hx
      rw [hr] at hx
      exact Nat.le_of_succ_le (ih (k + 1) x hx)

theorem prepareAux_pairwise : ∀ (rows : List LinkRaw) (k : Nat),
    (prepareAux k rows).Pairwise (fun a b => a.1 < b.1) := by
  intro rows
  induction rows with
  | nil => intro k; simp [prepareAux]
  | cons r rs ih =>
    intro k
    cases hr : prepareRow r with
    | some p0 =>
      rw [prepareAux, hr]
      exact List.Pairwise.cons
        (fun y hy => Nat.lt_of_succ_le (prepareAux_fst_ge rs (k + 1) y hy)) (ih (k + 1))
    | none =>
      rw [prepareAux, hr]
      exact ih (k + 1)

theorem mem_createCandidatePairs (A B : List (Nat × Prepared))
    (a b : Nat × Prepared) :
    (a, b) ∈ createCandidatePairs A B ↔
      a ∈ A ∧ b ∈ B ∧ blockKey a.2 = blockKey b.2 := by
  simp only [createCandidatePairs, List.mem_flatMap, List.mem_map,
    List.mem_filter, decide_eq_true_eq, Prod.mk.injEq]
  constructor
  · rintro ⟨a', ha', b', ⟨hb', hk⟩, rfl, rfl⟩
    exact ⟨ha', hb', hk⟩
  · rintro ⟨ha, hb, hk⟩
    exact ⟨a, ha, b, ⟨hb, hk⟩, rfl, rfl⟩

theorem prepareRow_eq_some (r : LinkRaw) (p : Prepared) :
    prepareRow r = some p ↔
      ∃ m y, r.mun6 = some m ∧ r.ano = some y ∧
        p = ⟨m, y, ymOf r.date, r.sexo, r.idade_anos.map roundHalfEven,
          r.cid3, tsOf r.date⟩ := by
  cases hm : r.mun6 with
  | none => simp [prepareRow, hm]
  | some m =>
    cases hy : r.ano with
    | none => simp [prepareRow, hm, hy]
    | some y =>
      simp only [prepareRow, hm, hy, Option.some.injEq]
      constructor
      · rintro rfl
        exact ⟨m, y, rfl, rfl, rfl⟩
      · rintro ⟨m', y', rfl, rfl, rfl⟩
        rfl

/-- The raw-row characterization of candidate-pair membership: a pair of
original indices is generated exactly when both rows survive the
`dropna(subset=["mun6","ano"])` and the two rows agree on the municipality
code, the year-month key of the date column, and the sex. -/
theorem mem_candidatePairIndices (sim sih : List LinkRaw) (i j : Nat) :
    (i, j) ∈ candidatePairIndices sim sih ↔
      ∃ ra rb, sim.get? i = some ra ∧ sih.get? j = some rb ∧
        ra.mun6 ≠ none ∧ ra.ano ≠ none ∧ rb.mun6 ≠ none ∧ rb.ano ≠ none ∧
        ra.mun6 = rb.mun6 ∧ ymOf ra.date = ymOf rb.date ∧ ra.sexo = rb.sexo := by
  rw [candidatePairIndices]
  constructor
  · intro h
    rcases List.mem_map.mp h with ⟨⟨⟨ia, pa2⟩, ib, pb2⟩, hmem, heq⟩
    injection heq with e1 e2
    subst e1; subst e2
    rcases (mem_createCandidatePairs _ _ _ _).mp hmem with ⟨hA, hB, hk⟩
    rcases (prepare_mem _ _ _).mp hA with ⟨ra, hra, hpa⟩
    rcases (prepare_mem _ _ _).mp hB with ⟨rb, hrb, hpb⟩
    rcases (prepareRow_eq_some _ _).mp hpa with ⟨ma, ya, hma, hya, rfl⟩
    rcases (prepareRow_eq_some _ _).mp hpb with ⟨mb, yb, hmb, hyb, rfl⟩
    rw [blockKey, blockKey] at hk
    simp only [Prod.mk.injEq] at hk
    refine ⟨ra, rb, hra, hrb, by simp [hma], by simp [hya], by simp [hmb],
      by simp [hyb], ?_, hk.2.1, hk.2.2⟩
    rw [hma, hmb, hk.1]
  · rintro ⟨ra, rb, hra, hrb, hma, hya, hmb, hyb, hmun, hym, hsex⟩
    rcases Option.ne_none_iff_exists'.mp hma with ⟨ma, hma'⟩
    rcases Option.ne_none_iff_exists'.mp hya with ⟨ya, hya'⟩
    rcases Option.ne_none_iff_exists'.mp hmb with ⟨mb, hmb'⟩
    rcases Option.ne_none_iff_exists'.mp hyb with ⟨yb, hyb'⟩
    have hpa : prepareRow ra = some ⟨ma, ya, ymOf ra.date, ra.sexo,
        ra.idade_anos.map roundHalfEven, ra.cid3, tsOf ra.date⟩ :=
      (prepareRow_eq_some _ _).mpr ⟨ma, ya, hma', hya', rfl⟩
    have hpb : prepareRow rb = some ⟨mb, yb, ymOf rb.date, rb.sexo,
        rb.idade_anos.map roundHalfEven, rb.cid3, tsOf rb.date⟩ :=
      (prepareRow_eq_some _ _).mpr ⟨mb, yb, hmb', hyb', rfl⟩
    refine List.mem_map.mpr ⟨((i, _), (j, _)),
      (mem_createCandidatePairs _ _ _ _).mpr
        ⟨(prepare_mem _ _ _).mpr ⟨ra, hra, hpa⟩,
         (prepare_mem _ _ _).mpr ⟨rb, hrb, hpb⟩, ?_⟩, rfl⟩
    rw [blockKey, blockKey]
    have : ma = mb := by
      rw [hma', hmb'] at hmun
      injection hmun
    rw [this, hym, hsex]

theorem count_le_one_of_nodup {α : Type} [BEq α] [LawfulBEq α] {l : List α}
    (h : l.Nodup) (a : α) : l.count a ≤ 1 := by
  induction l with
  | nil => simp
  | cons x l ih =>
    rcases List.nodup_cons.mp h with ⟨hx, hl⟩
    rw [List.count_cons]
    by_cases hax : a = x
    · subst hax
      rw [List.count_eq_zero.mpr hx]
      simp
    · rw [if_neg (by simp; exact fun h => hax h.symm)]
      simpa using ih hl

theorem candidatePairIndices_nodup (sim sih : List LinkRaw) :
    (candidatePairIndices sim sih).Nodup := by
  have hA : (prepare sim).Pairwise (fun a b => a.1 < b.1) := prepareAux_pairwise sim 0
  have hB : (prepare sih).Pairwise (fun a b => a.1 < b.1) := prepareAux_pairwise sih 0
  rw [candidatePairIndices, createCandidatePairs, List.map_flatMap]
  rw [List.nodup_flatMap]
  constructor
  · intro a _
    rw [List.map_map]
    have hBf : ((prepare sih).filter
        (fun b => decide (blockKey a.2 = blockKey b.2))).Pairwise
        (fun x y => x.1 < y.1) :=
      hB.sublist (List.filter_sublist _)
    refine List.Pairwise.map _ ?_ hBf
    intro x y hxy he
    have h2 : x.1 = y.1 := congrArg Prod.snd he
    omega
  · refine hA.imp ?_
    intro a b hab
    intro x hxa hxb
    simp only [List.map_map, List.mem_map, Function.comp] at hxa hxb
    obtain ⟨xa, _, rfl⟩ := hxa
    obtain ⟨xb, _, hxx⟩ := hxb
    injection hxx with h1 h2
    omega

/-- C1: candidate-pair generation produces the pair of original indices
(i, j) exactly when both rows survive the dropna on municipality and year
and agree on all three blocking keys (municipality code, year-month key of
the date, sex); every generated pair appears exactly once (the pair list
has no duplicates, so each count is at most 1, and membership is settled by
the iff); and a row with missing municipality or missing year appears in no
candidate pair. -/
theorem candidate_pairs_spec (sim sih : List LinkRaw) :
    (∀ i j, (i, j) ∈ candidatePairIndices sim sih ↔
      ∃ ra rb, sim.get? i = some ra ∧ sih.get? j = some rb ∧
        ra.mun6 ≠ none ∧ ra.ano ≠ none ∧ rb.mun6 ≠ none ∧ rb.ano ≠ none ∧
        ra.mun6 = rb.mun6 ∧ ymOf ra.date = ymOf rb.date ∧ ra.sexo = rb.sexo) ∧
    (∀ i j, (candidatePairIndices sim sih).count (i, j) ≤ 1) ∧
    (∀ i ra, sim.get? i = some ra → (ra.mun6 = none ∨ ra.ano = none) →
      ∀ j, (i, j) ∉ candidatePairIndices sim sih) ∧
    (∀ j rb, sih.get? j = some rb → (rb.mun6 = none ∨ rb.ano = none) →
      ∀ i, (i, j) ∉ candidatePairIndices sim sih) := by
  refine ⟨fun i j => mem_candidatePairIndices sim sih i j,
    fun i j => count_le_one_of_nodup (candidatePairIndices_nodup sim sih) (i, j),
    ?_, ?_⟩
  · intro i ra hra hmiss j hmem
    rcases (mem_candidatePairIndices sim sih i j).mp hmem with
      ⟨ra', rb', hra', _, hm, hy, _, _, _, _, _⟩
    rw [hra] at hra'
    injection hra' with h
    subst h
    rcases hmiss with h | h
    · exact hm h
    · exact hy h
  · intro j rb hrb hmiss i hmem
    rcases (mem_candidatePairIndices sim sih i j).mp hmem with
      ⟨ra', rb', _, hrb', _, _, hm, hy, _, _, _⟩
    rw [hrb] at hrb'
    injection hrb' with h
    subst h
    rcases hmiss with h | h
    · exact hm h
    · exact hy h

/-- C10: a row whose date is missing is not excluded from blocking — its
year-month key is the NaT key, so given equal municipality and sex keys on
rows that survived the dropna, a missing-date death row pairs with a
discharge row exactly when that row's date is missing too (it pairs with
fellow NaT rows and never with a row holding a real date). -/
theorem missing_date_blocking_spec (sim sih : List LinkRaw) (i j : Nat)
    (ra rb : LinkRaw) (hi : sim.get? i = some ra) (hj : sih.get? j = some rb)
    (hma : ra.mun6 ≠ none) (hya : ra.ano ≠ none) (hmb : rb.mun6 ≠ none)
    (hyb : rb.ano ≠ none) (hmun : ra.mun6 = rb.mun6) (hsex : ra.sexo = rb.sexo)
    (hda : ra.date = none) :
    ((i, j) ∈ candidatePairIndices sim sih ↔ rb.date = none) := by
  rw [mem_candidatePairIndices]
  constructor
  · rintro ⟨ra', rb', hi', hj', _, _, _, _, _, hym, _⟩
    rw [hi] at hi'
    injection hi' with h
    subst h
    rw [hj] at hj'
    injection hj' with h
    subst h
    rw [hda] at hym
    cases hd : rb.date with
    | none => rfl
    | some t =>
      rw [hd] at hym
      simp [ymOf] at hym
  · intro hbd
    exact ⟨ra, rb, hi, hj, hma, hya, hmb, hyb, hmun, by rw [hda, hbd], hsex⟩

/-- C10 witness: two concrete date-less rows sharing municipality and sex do
generate the candidate pair (0, 0), while the same death row paired against
a discharge row carrying a real date generates nothing. -/
theorem missing_date_blocking_witness :
    (0, 0) ∈ candidatePairIndices [rowNoDate] [rowNoDate] ∧
    (0, 0) ∉ candidatePairIndices [rowNoDate] [rowMarch] := by
  constructor
  · exact (missing_date_blocking_spec [rowNoDate] [rowNoDate] 0 0 rowNoDate
      rowNoDate rfl rfl (by decide) (by decide) (by decide) (by decide) rfl rfl
      rfl).mpr rfl
  · intro hmem
    have := (missing_date_blocking_spec [rowNoDate] [rowMarch] 0 0 rowNoDate
      rowMarch rfl rfl (by decide) (by decide) (by decide) (by decide) rfl rfl
      rfl).mp hmem
    simp [rowMarch] at this

/-! ### C3: classification failure handling -/

theorem gaussSim_zero (s : ℝ) : gaussSim s 0 = 1 := by
  simp [gaussSim]

/-- C3 (amended): when the classifier's fit raises on the candidate set's
comparison vectors, `link_sim_sih` propagates the exception and the run
fails; the Record Linker has no fixed-threshold fallback — the only
recovery in `_classify_pairs` is the choice of classifier class on
`AttributeError`, which does not protect the fit itself. -/
theorem classifier_error_propagates (env : ClassifierEnv ℝ)
    (sim sih : List LinkRaw) (e : String)
    (hpairs : (createCandidatePairs (prepare sim) (prepare sih)).isEmpty = false)
    (herr : classifyPairs env
      ((createCandidatePairs (prepare sim) (prepare sih)).map
        (fun ab => compareFeatures ab.1.2 ab.2.2)) = Except.error e) :
    link_sim_sih env sim sih = Except.error e := by
  have hAem : (prepare sim).isEmpty = false := by
    by_contra h
    rw [Bool.not_eq_false, List.isEmpty_iff] at h
    rw [h] at hpairs
    simp [createCandidatePairs] at hpairs
  have hBem : (prepare sih).isEmpty = false := by
    by_contra h
    rw [Bool.not_eq_false, List.isEmpty_iff] at h
    rw [h] at hpairs
    simp [createCandidatePairs] at hpairs
  rw [link_sim_sih]
  simp only [hAem, hBem, hpairs, Bool.or_self, Bool.false_eq_true, if_false, herr]

/-- C3 witness: a pipeline run on two concrete one-row tables that block
together, under a classifier whose fit raises, ends in that raised error. -/
theorem classifier_error_propagates_witness :
    link_sim_sih failingEnv [rowNoDate] [rowNoDate] =
      Except.error "degenerate input" := by
  exact classifier_error_propagates failingEnv [rowNoDate] [rowNoDate]
    "degenerate input" (by decide) rfl

/-- C3 counterexample: on a degenerate run whose classifier fit raises, the
Record Linker raises and fails (left conjunct) even though the candidate
pair's score sum is 2.0, so the claimed threshold rule would have decided a
match for it (right conjunct): the code has no such fallback. -/
theorem no_threshold_fallback_on_degenerate :
    link_sim_sih failingEnv [rowNoDate] [rowNoDate] =
      Except.error "degenerate input" ∧
    specThresholdFallback
      ((createCandidatePairs (prepare [rowNoDate]) (prepare [rowNoDate])).map
        (fun ab => compareFeatures ab.1.2 ab.2.2)) = [true] := by
  constructor
  · rfl
  · have hpairs : createCandidatePairs (prepare [rowNoDate]) (prepare [rowNoDate]) =
        [((0, prepNoDate), (0, prepNoDate))] := by decide
    rw [hpairs]
    have hsum : featSum (compareFeatures prepNoDate prepNoDate) = 2 := by
      have hcid : (compareFeatures prepNoDate prepNoDate).cid3_eq = 1 := by
        simp [compareFeatures, prepNoDate]
      have hage : (compareFeatures prepNoDate prepNoDate).age_close = 0 := by
        simp [compareFeatures, prepNoDate]
      have hdate : (compareFeatures prepNoDate prepNoDate).date_close = 1 := by
        show gaussSim 3 (((-106752 : ℤ) : ℝ) - ((-106752 : ℤ) : ℝ)) = 1
        rw [sub_self]
        exact gaussSim_zero 3
      rw [featSum, hcid, hage, hdate]
      norm_num
    show [decide ((2 : ℝ) ≤ featSum (compareFeatures prepNoDate prepNoDate))] = [true]
    rw [hsum]
    simp
